import Mathlib

/-!
Verification of the comment-driven analysis pipeline of the minos backend.

The Lean definitions below are a shallow embedding of the TypeScript source:

* `src/app/api/analyze/comments/route.ts` — the `withRetry` helper, the
  `agentMentions` filter (the Mention Scanner) and the per-comment
  reply/audit loop of the `POST` handler;
* `src/lib/designParser.ts` — `getSafeScale`, the pin-corner / region
  geometry, the crop clamp, and the fallback ladder of
  `extractDesignContext`.

JavaScript numbers on the geometry path are modelled as rationals (`Rat`)
with `Math.round` as `⌊q + 1/2⌋` (round half toward +∞, which is JS
semantics), strings as Lean `String`, and JS truthiness of the optional
string / number fields is modelled explicitly.  External effects (Figma
fetches, sharp image operations, the Supabase insert, the LLM call) are
modelled as oracle fields of explicit environment structures returning
`Except`/`Option` values, so every function below is total and executable.
-/

namespace Minos

/-! ## Strings and JS truthiness -/

/-- `String.prototype.toLowerCase`, modelled character-wise. -/
def strToLower (s : String) : String := ⟨s.data.map Char.toLower⟩

/-- `String.prototype.includes`: substring containment (not word-boundary). -/
def strIncludes (s pat : String) : Bool := decide (pat.data <:+: s.data)

/-- JS `a || b` for an optional string `a`: the empty string is falsy. -/
def jsOrStr : Option String → String → String
  | some s, d => if s = "" then d else s
  | none, d => d

/-- JS truthiness of an optional string field (`undefined` and `""` are falsy). -/
def truthyStr : Option String → Bool
  | some s => s ≠ ""
  | none => false

/-- JS truthiness of an optional numeric field (`undefined` and `0` are falsy). -/
def truthyNum : Option Rat → Bool
  | some q => q ≠ 0
  | none => false

/-- JS `x || 0` for an optional number. -/
def jsOrZero : Option Rat → Rat
  | some q => q
  | none => 0

/-! ## Data model (spec §3, mirroring the fields the source reads) -/

/-- `client_meta.node_offset {x, y}`. -/
structure NodeOffset where
  x : Rat
  y : Rat
deriving Repr, DecidableEq

/-- The `client_meta` of a comment, as read by `extractDesignContext`. -/
structure ClientMeta where
  node_id : Option String := none
  node_offset : Option NodeOffset := none
  region_width : Option Rat := none
  region_height : Option Rat := none
  comment_pin_corner : Option String := none
deriving Repr, DecidableEq

/-- A comment of the fetched snapshot, with the fields the route reads.
`message`/`text`/`content` are the alternate text fields the scanner falls
back across; `user_id` models `comment.user?.id`. -/
structure Comment where
  id : String
  message : Option String := none
  text : Option String := none
  content : Option String := none
  resolved_at : Option String := none
  parent_id : Option String := none
  user_id : Option String := none
  client_meta : Option ClientMeta := none
deriving Repr, DecidableEq

/-! ## Mention Scanner (`agentMentions`, route.ts lines 96–140) -/

/-- `(comment.message || comment.text || comment.content || '').toLowerCase()`. -/
def messageText (c : Comment) : String :=
  strToLower (jsOrStr c.message (jsOrStr c.text (jsOrStr c.content "")))

/-- `AGENT_CONFIG.mentionPatterns.some(pattern => messageText.includes(pattern))`. -/
def hasMention (patterns : List String) (t : String) : Bool :=
  patterns.any (fun p => strIncludes t p)

/-- `comments.some(c => c.parent_id === comment.id && c.user?.id === botFigmaUserId)`. -/
def hasBotReply (comments : List Comment) (botId : String) (cid : String) : Bool :=
  comments.any (fun r => r.parent_id == some cid && r.user_id == some botId)

/-- The filter body of `agentMentions`: the sequential early-return chain of
route.ts lines 96–139 (resolved → no text → no mention → already answered →
self-authored), translated to a conjunction in the same order. -/
def isActionable (comments : List Comment) (patterns : List String) (botId : String)
    (c : Comment) : Bool :=
  !truthyStr c.resolved_at
    && messageText c != ""
    && hasMention patterns (messageText c)
    && !hasBotReply comments botId c.id
    && !(c.user_id == some botId)

/-- `const agentMentions = comments.filter(...)` of route.ts line 96. -/
def agentMentions (comments : List Comment) (patterns : List String) (botId : String) :
    List Comment :=
  comments.filter (isActionable comments patterns botId)

/-! ## Geometry Resolver (designParser.ts lines 44–50 and 130–232) -/

/-- `MIN_VIEWPORT_SIZE = 800` (designParser.ts line 7). -/
def MIN_VIEWPORT_SIZE : Int := 800

/-- JS `Math.round`: round half toward positive infinity. -/
def jsRound (q : Rat) : Int := ⌊q + 1/2⌋

/-- `getSafeScale` (designParser.ts lines 45–50). -/
def getSafeScale (width height : Rat) : Rat :=
  let maxDim := max width height
  if maxDim > 4000 then 1/2
  else if maxDim > 2000 then 1
  else 2

/-- `meta.comment_pin_corner || 'bottom-right'` (line 147): JS `||`, so an
absent or empty string defaults to `'bottom-right'`. -/
def jsOrCorner : Option String → String
  | some s => if s = "" then "bottom-right" else s
  | none => "bottom-right"

/-- The pin-corner branch chain (lines 154–166): top-left corner of the
region rectangle from the pin point and the scaled region size.  Any corner
value other than the three recognized ones falls to the final `else`
(top-left). -/
def resolveRegionTopLeft (pinX pinY rW rH : Rat) (pinCorner : String) : Rat × Rat :=
  if pinCorner = "bottom-right" then (pinX - rW, pinY - rH)
  else if pinCorner = "bottom-left" then (pinX, pinY - rH)
  else if pinCorner = "top-right" then (pinX - rW, pinY)
  else (pinX, pinY)

/-- A rectangle with rational coordinates (the resolved region rectangle
before rounding). -/
structure RatRect where
  left : Rat
  top : Rat
  width : Rat
  height : Rat
deriving Repr, DecidableEq

/-- An integer crop rectangle (`{x, y, width, height}`). -/
structure IntRect where
  x : Int
  y : Int
  width : Int
  height : Int
deriving Repr, DecidableEq

/-- JS truthiness of `meta.region_width && meta.region_height` (line 140). -/
def regionTruthy (m : ClientMeta) : Bool :=
  truthyNum m.region_width && truthyNum m.region_height

/-- Lines 140–166: for a region comment, the region rectangle in scaled
image space — size `region_width × region_height` scaled by `scale`, its
top-left resolved from the pin corner.  `none` for a pin (point) comment. -/
def regionRect (m : ClientMeta) (off : NodeOffset) (scale : Rat) : Option RatRect :=
  if regionTruthy m then
    let rW := jsOrZero m.region_width * scale
    let rH := jsOrZero m.region_height * scale
    let pinX := off.x * scale
    let pinY := off.y * scale
    let lt := resolveRegionTopLeft pinX pinY rW rH (jsOrCorner m.comment_pin_corner)
    some ⟨lt.1, lt.2, rW, rH⟩
  else none

/-- Lines 137–196: the crop rectangle before clamping.  Region branch: the
exact region rounded when a scaled dimension reaches `MIN_VIEWPORT_SIZE`,
else a fixed `MIN_VIEWPORT_SIZE` square re-centred on the region's centroid;
pin branch: a fixed square centred on the scaled pin offset. -/
def preClampCrop (m : ClientMeta) (off : NodeOffset) (scale : Rat) : IntRect :=
  match regionRect m off scale with
  | some r =>
    if r.width ≥ (MIN_VIEWPORT_SIZE : Rat) ∨ r.height ≥ (MIN_VIEWPORT_SIZE : Rat) then
      ⟨jsRound r.left, jsRound r.top, jsRound r.width, jsRound r.height⟩
    else
      ⟨jsRound (r.left + r.width / 2 - (MIN_VIEWPORT_SIZE : Rat) / 2),
       jsRound (r.top + r.height / 2 - (MIN_VIEWPORT_SIZE : Rat) / 2),
       MIN_VIEWPORT_SIZE, MIN_VIEWPORT_SIZE⟩
  | none =>
    ⟨jsRound (off.x * scale - (MIN_VIEWPORT_SIZE : Rat) / 2),
     jsRound (off.y * scale - (MIN_VIEWPORT_SIZE : Rat) / 2),
     MIN_VIEWPORT_SIZE, MIN_VIEWPORT_SIZE⟩

/-- Lines 198–207: clamp the crop to the image (`x = max(0, x)`,
`width = min(width, imgW - x)`, same for `y`/`height`; `Math.round` of an
integer is the identity), then accept it only if both clamped dimensions are
positive — otherwise the code throws `'Invalid crop dimensions'`, modelled
as `none`. -/
def clampCrop (c : IntRect) (imgW imgH : Int) : Option IntRect :=
  let x := max 0 c.x
  let y := max 0 c.y
  let w := min c.width (imgW - x)
  let h := min c.height (imgH - y)
  if 0 < w ∧ 0 < h then some ⟨x, y, w, h⟩ else none

/-! ## Image Materializer / Context Extractor (`extractDesignContext`) -/

/-- `node.absoluteBoundingBox` as read by the extractor. -/
structure BBox where
  x : Rat
  y : Rat
  width : Rat
  height : Rat
deriving Repr, DecidableEq

/-- The node document fields the extractor reads (`name`, `type`,
`absoluteBoundingBox`). -/
structure NodeDoc where
  name : String
  ntype : String
  absoluteBoundingBox : Option BBox := none
deriving Repr, DecidableEq

/-- `node.absoluteBoundingBox?.width || 0` (line 84). -/
def nodeWidth (node : NodeDoc) : Rat := jsOrZero (node.absoluteBoundingBox.map BBox.width)

/-- `node.absoluteBoundingBox?.height || 0` (line 85). -/
def nodeHeight (node : NodeDoc) : Rat := jsOrZero (node.absoluteBoundingBox.map BBox.height)

/-- `nodeProperties` (lines 87–92). -/
structure NodeProps where
  width : Rat
  height : Rat
  x : Option Rat
  y : Option Rat
deriving Repr, DecidableEq

/-- A downloaded bitmap: the pixel dimensions `sharp(...).metadata()`
reports (absent when the metadata probe yields none). -/
structure ImageBuf where
  width : Option Int := none
  height : Option Int := none
deriving Repr, DecidableEq

/-- The `DesignContext` the extractor returns; any subset of fields may be
absent (spec §3). -/
structure DesignContext where
  nodeId : Option String := none
  nodeName : Option String := none
  nodeType : Option String := none
  nodeProperties : Option NodeProps := none
  imageUrl : Option String := none
  imageBase64 : Option String := none
deriving Repr, DecidableEq

/-- The external effects of `extractDesignContext`, one oracle per fallible
step so each step may fail independently: the node-metadata fetch, the first
rendered-image request (at the chosen scale), the retry request at scale
0.5, the two image downloads (crop path and fallback path re-fetch the URL
separately), and the two sharp encode pipelines.  `Except.error` models a
thrown exception; the image request's `Option` models
`data.images?.[nodeId] || null`. -/
structure ExtractEnv where
  nodeInfo : Except String (Option NodeDoc)
  fetch1 : Rat → Except String (Option String)
  fetch2 : Except String (Option String)
  download1 : String → Except String ImageBuf
  cropEncode : ImageBuf → IntRect → Except String String
  download2 : String → Except String ImageBuf
  fullEncode : ImageBuf → Except String String

/-- Lines 100–107: `getSafeScale` capped at 0.5 for `CANVAS`/`DOCUMENT`
nodes. -/
def chooseScale (node : NodeDoc) : Rat :=
  let s := getSafeScale (nodeWidth node) (nodeHeight node)
  if node.ntype = "CANVAS" ∨ node.ntype = "DOCUMENT" then min s (1/2) else s

/-- Lines 111–118: fetch the rendered image at the chosen scale; on a thrown
error retry once at scale 0.5 (and record that the actual scale is 0.5). -/
def fetchWithRetry (env : ExtractEnv) (scale : Rat) : Except String (Option String × Rat) :=
  match env.fetch1 scale with
  | .ok u => .ok (u, scale)
  | .error _ =>
    match env.fetch2 with
    | .ok u => .ok (u, 1/2)
    | .error e => .error e

/-- Lines 130–232: the crop pipeline over the downloaded buffer.  Requires
truthy metadata dimensions and a `node_offset` (else
`'Missing metadata or offset'` is thrown); a clamp rejection throws
`'Invalid crop dimensions'`; otherwise the sharp extract/resize/re-encode
runs (which may itself fail). -/
def cropPipeline (env : ExtractEnv) (meta : ClientMeta) (scale : Rat) (buf : ImageBuf) :
    Except String String :=
  match buf.width, buf.height, meta.node_offset with
  | some iw, some ih, some off =>
    if iw ≠ 0 ∧ ih ≠ 0 then
      match clampCrop (preClampCrop meta off scale) iw ih with
      | some r => env.cropEncode buf r
      | none => .error "Invalid crop dimensions"
    else .error "Missing metadata or offset"
  | _, _, _ => .error "Missing metadata or offset"

/-- The body of the inner `try` (lines 98–233): returns the `imageUrl`
variable as visible after the block together with the block's outcome —
`ok (some b64)` when the crop succeeded, `ok none` when no truthy URL was
obtained without a throw, `error` when any step threw. -/
def smartStep (env : ExtractEnv) (meta : ClientMeta) (node : NodeDoc) :
    Option String × Except String (Option String) :=
  match fetchWithRetry env (chooseScale node) with
  | .error e => (none, .error e)
  | .ok (url?, scale) =>
    match url? with
    | none => (none, .ok none)
    | some u =>
      if u = "" then (some u, .ok none)
      else
        match env.download1 u with
        | .error e => (some u, .error e)
        | .ok buf =>
          match cropPipeline env meta scale buf with
          | .ok b64 => (some u, .ok (some b64))
          | .error e => (some u, .error e)

/-- The `catch (imgError)` fallback (lines 234–256): when a truthy URL
exists, re-download it and resize/re-encode the whole frame; any failure
leaves `imageBase64` unset. -/
def fallbackStep (env : ExtractEnv) (url? : Option String) : Option String :=
  match url? with
  | some u =>
    if u = "" then none
    else
      match env.download2 u with
      | .error _ => none
      | .ok buf =>
        match env.fullEncode buf with
        | .ok b64 => some b64
        | .error _ => none
  | none => none

/-- The smart-processing step with its fallback ladder: the `try`/`catch`
pair of lines 98–256, yielding the final `(imageUrl, imageBase64)`. -/
def smartProcess (env : ExtractEnv) (meta : ClientMeta) (node : NodeDoc) :
    Option String × Option String :=
  match smartStep env meta node with
  | (url?, .ok b64?) => (url?, b64?)
  | (url?, .error _) => (url?, fallbackStep env url?)

/-- `extractDesignContext` (lines 53–270).  Total: the outer `try`/`catch`
returns `{}` on the node-metadata throw, and every other failure is
absorbed by the inner handlers, so the extractor never raises. -/
def extractDesignContext (env : ExtractEnv) (comment : Comment) : DesignContext :=
  match comment.client_meta with
  | none => {}
  | some meta =>
    match meta.node_id with
    | none => {}
    | some nid =>
      if nid = "" then {}
      else
        match env.nodeInfo with
        | .error _ => {}
        | .ok none => { nodeId := some nid }
        | .ok (some node) =>
          let res := smartProcess env meta node
          { nodeId := some nid
            nodeName := some node.name
            nodeType := some node.ntype
            nodeProperties := some ⟨nodeWidth node, nodeHeight node,
              node.absoluteBoundingBox.map BBox.x, node.absoluteBoundingBox.map BBox.y⟩
            imageUrl := res.1
            imageBase64 := res.2 }

/-! ## Retry Guard (`withRetry`, route.ts lines 10–22) -/

/-- The retry loop: `fn i` is the outcome of the `i`-th attempt, `r` the
attempts left, `last` the last recorded error.  When the budget is spent the
recorded error is re-raised unchanged (`none` models JS throwing the
still-undefined `lastError` when the budget was 0).  The inter-attempt
delay does not affect the returned value and is not modelled. -/
def withRetryGo {ε α : Type} (fn : Nat → Except ε α) :
    Nat → Nat → Option ε → Option (Except ε α)
  | _, 0, last => last.map Except.error
  | i, r+1, _ =>
    match fn i with
    | .ok a => some (.ok a)
    | .error e => withRetryGo fn (i+1) r (some e)

/-- `withRetry(fn, retries, delay)` (lines 10–22). -/
def withRetry {ε α : Type} (fn : Nat → Except ε α) (retries : Nat) : Option (Except ε α) :=
  withRetryGo fn 0 retries none

/-! ## Commit Pipeline (the per-comment loop, route.ts lines 144–245) -/

/-- An entry of `replies[]` (lines 221–224); the reply payload is kept
abstract as a string. -/
structure ReplyRec where
  originalCommentId : String
  reply : String
deriving Repr, DecidableEq

/-- An entry of `skipped[]` (lines 229–232). -/
structure SkipRec where
  commentId : String
  errMsg : String
deriving Repr, DecidableEq

/-- The audit record inserted into `analysis_requests` (lines 182–199),
restricted to the per-comment fields the claims are about. -/
structure AuditRec where
  comment_id : String
  comment_text : Option String
  node_id : Option String
  node_image : Option String
  llm_response : String
  status : String
  error_message : Option String
deriving Repr, DecidableEq

/-- The per-comment outcomes of the external steps: the design context the
extractor returned, the LLM analysis after the Retry Guard (`ok` text or the
exhausted-retries error), whether the audit insert succeeded, and the
outcome of `postCommentReply` (`ok` payload or thrown error message). -/
structure PerCommentEnv where
  designCtx : DesignContext
  llm : Except String String
  auditOk : Bool
  post : Except String String

/-- Line 175: the user-facing apology used when the analysis retries are
exhausted. -/
def apologyMessage (errMsg : String) : String :=
  "👋 I'm having trouble analyzing this right now (Error: " ++ errMsg ++
    "). Please try again later."

/-- Lines 156–178: `(replyMessage, analysisStatus, analysisError)`. -/
def analysisOutcome (env : PerCommentEnv) : String × String × Option String :=
  match env.llm with
  | .ok analysis => (analysis, "success", none)
  | .error e => (apologyMessage e, "error", some e)

/-- The audit record built for one comment (lines 182–199). -/
def auditRecOf (env : PerCommentEnv) (c : Comment) : AuditRec :=
  let o := analysisOutcome env
  { comment_id := c.id
    comment_text := c.message
    node_id := env.designCtx.nodeId
    node_image := env.designCtx.imageBase64
    llm_response := o.1
    status := o.2.1
    error_message := o.2.2 }

/-- The mutable state of the loop: `replies`, `skipped`, and the append-only
audit log. -/
structure LoopState where
  replies : List ReplyRec
  skipped : List SkipRec
  audit : List AuditRec
deriving Repr, DecidableEq

/-- One iteration of the loop (lines 148–234): the audit insert happens
before the reply post and is kept on either outcome (its own failure is
swallowed, line 205); a successful post appends to `replies`, a thrown post
error is caught and appends to `skipped`. -/
def processComment (oracle : Comment → PerCommentEnv) (st : LoopState) (c : Comment) :
    LoopState :=
  let env := oracle c
  let audit' := if env.auditOk then st.audit ++ [auditRecOf env c] else st.audit
  match env.post with
  | .ok replyResult =>
    { replies := st.replies ++ [⟨c.id, replyResult⟩], skipped := st.skipped, audit := audit' }
  | .error e =>
    { replies := st.replies, skipped := st.skipped ++ [⟨c.id, e⟩], audit := audit' }

/-- `for (const comment of agentMentions) { ... }` (lines 148–234). -/
def processLoop (oracle : Comment → PerCommentEnv) (cs : List Comment) : LoopState :=
  cs.foldl (processComment oracle) ⟨[], [], []⟩

/-- What one comment contributes to `replies[]`. -/
def replyDelta (oracle : Comment → PerCommentEnv) (c : Comment) : List ReplyRec :=
  match (oracle c).post with
  | .ok r => [⟨c.id, r⟩]
  | .error _ => []

/-- What one comment contributes to `skipped[]`. -/
def skipDelta (oracle : Comment → PerCommentEnv) (c : Comment) : List SkipRec :=
  match (oracle c).post with
  | .ok _ => []
  | .error e => [⟨c.id, e⟩]

/-- What one comment contributes to the audit log. -/
def auditDelta (oracle : Comment → PerCommentEnv) (c : Comment) : List AuditRec :=
  if (oracle c).auditOk then [auditRecOf (oracle c) c] else []

/-- The response summary (lines 236–245). -/
structure RunSummary where
  totalComments : Nat
  mentionsFound : Nat
  repliesSent : Nat
  skippedCount : Nat
  replies : List ReplyRec
  skippedDetails : List SkipRec
deriving Repr, DecidableEq

/-- The run over one snapshot once the per-comment loop is reached: filter
the snapshot, process each actionable comment in order, and report the
counts the route returns. -/
def runSummary (oracle : Comment → PerCommentEnv) (cs : List Comment)
    (patterns : List String) (botId : String) : RunSummary :=
  let ms := agentMentions cs patterns botId
  let st := processLoop oracle ms
  ⟨cs.length, ms.length, st.replies.length, st.skipped.length, st.replies, st.skipped⟩

/-! ## Concrete instances used to exercise the theorems -/

/-- A user comment that mentions the agent. -/
def wComment : Comment :=
  { id := "c1", message := some "hey @Bot please review", user_id := some "U1" }

/-- The bot's threaded reply to `wComment`. -/
def wReply : Comment :=
  { id := "r1", message := some "done", parent_id := some "c1", user_id := some "B1" }

/-- A per-comment oracle where every external step succeeds. -/
def wOracle : Comment → PerCommentEnv :=
  fun _ => ⟨{}, .ok "analysis", true, .ok "posted"⟩

/-- A per-comment oracle where posting fails for comment `cA` only. -/
def wOracle5 : Comment → PerCommentEnv :=
  fun c =>
    if c.id = "cA" then ⟨{}, .ok "analysis A", true, .error "boom"⟩
    else ⟨{}, .ok "analysis B", true, .ok "reply B"⟩

/-- The comment whose reply post fails. -/
def wA : Comment := { id := "cA" }

/-- A later comment whose reply post succeeds. -/
def wB : Comment := { id := "cB" }

/-- An attempt oracle failing twice, then succeeding. -/
def wRetryOk : Nat → Except String String :=
  fun i => if i < 2 then .error "transient" else .ok "success"

/-- An attempt oracle failing on every attempt, with a distinct final error. -/
def wRetryFail : Nat → Except String String :=
  fun i => if i = 2 then .error "final" else .error "transient"

/-- A node with a 100×100 bounding box. -/
def wNode : NodeDoc := { name := "Frame 1", ntype := "FRAME", absoluteBoundingBox := some ⟨0, 0, 100, 100⟩ }

/-- Client meta carrying only a node id and a pin offset. -/
def wMeta : ClientMeta := { node_id := some "1:2", node_offset := some ⟨10, 10⟩ }

/-- A comment pinned to node `1:2`. -/
def wCommentCtx : Comment := { id := "c9", client_meta := some wMeta }

/-- An environment where the render URL is obtained, the crop-path download
throws, and the fallback re-download throws as well. -/
def cexEnv4 : ExtractEnv :=
  { nodeInfo := .ok (some wNode)
    fetch1 := fun _ => .ok (some "http://img")
    fetch2 := .error "unreachable"
    download1 := fun _ => .error "download failed"
    cropEncode := fun _ _ => .error "unused"
    download2 := fun _ => .error "fallback fetch failed"
    fullEncode := fun _ => .error "unused" }

/-- An environment where the render URL is obtained, the crop-path download
throws, and the full-frame fallback succeeds. -/
def wEnv4 : ExtractEnv :=
  { nodeInfo := .ok (some wNode)
    fetch1 := fun _ => .ok (some "http://img")
    fetch2 := .error "unreachable"
    download1 := fun _ => .error "download failed"
    cropEncode := fun _ _ => .error "unused"
    download2 := fun _ => .ok ⟨some 200, some 200⟩
    fullEncode := fun _ => .ok "fullframe-jpeg" }

/-- The zero pin offset. -/
def offZero : NodeOffset := ⟨0, 0⟩

/-- A small 100×50 region pinned by its top-left corner. -/
def wMeta7 : ClientMeta :=
  { region_width := some 100, region_height := some 50, comment_pin_corner := some "top-left" }

/-- A tiny 1×1 region pinned by its top-left corner: its centroid has
half-integer coordinates. -/
def cexMeta7 : ClientMeta :=
  { region_width := some 1, region_height := some 1, comment_pin_corner := some "top-left" }

/-- The region meta of the C8 example. -/
def wMeta8 : ClientMeta :=
  { region_width := some 200, region_height := some 100, comment_pin_corner := some "top-left" }

/-! # Theorems -/

/-- Unfolding of the scanner's per-comment test into its five conditions. -/
theorem isActionable_iff (cs : List Comment) (ps : List String) (bot : String) (c : Comment) :
    isActionable cs ps bot c = true ↔
      truthyStr c.resolved_at = false ∧
      messageText c ≠ "" ∧
      (∃ p ∈ ps, strIncludes (messageText c) p = true) ∧
      (∀ r ∈ cs, ¬(r.parent_id = some c.id ∧ r.user_id = some bot)) ∧
      c.user_id ≠ some bot := by
  simp only [isActionable, Bool.and_eq_true, Bool.not_eq_true', bne_iff_ne, ne_eq,
    hasMention, hasBotReply, List.any_eq_true, List.any_eq_false, Bool.and_eq_true,
    beq_iff_eq, Bool.not_eq_true]
  constructor
  · rintro ⟨⟨⟨⟨h1, h2⟩, h3⟩, h4⟩, h5⟩
    refine ⟨h1, h2, h3, ?_, by simpa using h5⟩
    intro r hr hrc
    exact absurd (by simp [hrc.1, hrc.2]) (h4 r hr)
  · rintro ⟨h1, h2, h3, h4, h5⟩
    refine ⟨⟨⟨⟨h1, h2⟩, h3⟩, ?_⟩, by simpa using h5⟩
    intro r hr
    have := h4 r hr
    by_cases hp : r.parent_id = some c.id <;> by_cases hu : r.user_id = some bot <;>
      simp [hp, hu] at this ⊢

/-- C2: the Mention Scanner returns exactly the subsequence, in original
collection order, of the comments whose `resolved_at` is unset (absent or
empty, JS truthiness), whose lower-cased fallback message text is non-empty
and contains a configured mention pattern as a substring, that no comment of
the same collection answers with a bot-authored reply (`parent_id` match),
and that are not bot-authored themselves.  Comments with missing or empty
text fields are excluded, not errored (the filter is a total pure
function). -/
theorem agentMentions_spec (cs : List Comment) (ps : List String) (bot : String) :
    (agentMentions cs ps bot).Sublist cs ∧
    ∀ c, c ∈ agentMentions cs ps bot ↔
      c ∈ cs ∧ truthyStr c.resolved_at = false ∧ messageText c ≠ "" ∧
      (∃ p ∈ ps, strIncludes (messageText c) p = true) ∧
      (∀ r ∈ cs, ¬(r.parent_id = some c.id ∧ r.user_id = some bot)) ∧
      c.user_id ≠ some bot := by
  refine ⟨List.filter_sublist _, fun c => ?_⟩
  rw [agentMentions, List.mem_filter, isActionable_iff]

/-- C1: a comment already answered in the same snapshot by a bot-authored
reply (`parent_id` match) is excluded from the actionable set; consequently
a snapshot extended with a bot reply to every previously actionable comment
yields zero actionable comments and zero new replies, so repeated sequential
invocations create at most one bot reply per comment. -/
theorem rescan_idempotent (oracle : Comment → PerCommentEnv) (cs rs : List Comment)
    (ps : List String) (bot : String)
    (hbot : ∀ r ∈ rs, r.user_id = some bot)
    (hcover : ∀ c ∈ agentMentions cs ps bot, ∃ r ∈ rs, r.parent_id = some c.id) :
    (∀ c r, r ∈ cs → r.parent_id = some c.id → r.user_id = some bot →
       c ∉ agentMentions cs ps bot) ∧
    agentMentions (cs ++ rs) ps bot = [] ∧
    (runSummary oracle (cs ++ rs) ps bot).repliesSent = 0 ∧
    (runSummary oracle (cs ++ rs) ps bot).replies = [] := by
  have hnil : agentMentions (cs ++ rs) ps bot = [] := by
    rw [agentMentions, List.filter_eq_nil_iff]
    intro c hc hact
    rw [isActionable_iff] at hact
    obtain ⟨h1, h2, h3, h4, h5⟩ := hact
    rcases List.mem_append.1 hc with hcs | hrs
    · have hact_cs : isActionable cs ps bot c = true := by
        rw [isActionable_iff]
        exact ⟨h1, h2, h3, fun r hr => h4 r (List.mem_append_left _ hr), h5⟩
      obtain ⟨r, hr, hpr⟩ := hcover c (List.mem_filter.2 ⟨hcs, hact_cs⟩)
      exact h4 r (List.mem_append_right _ hr) ⟨hpr, hbot r hr⟩
    · exact h5 (hbot c hrs)
  refine ⟨?_, hnil, ?_, ?_⟩
  · intro c r hr hp hu hmem
    rw [agentMentions, List.mem_filter, isActionable_iff] at hmem
    exact hmem.2.2.2.2.1 r hr ⟨hp, hu⟩
  · simp [runSummary, hnil, processLoop]
  · simp [runSummary, hnil, processLoop]

/-- Exercises C1 at a concrete snapshot: one actionable comment plus the
bot's reply to it; the re-scan finds nothing actionable. -/
theorem rescan_idempotent_witness :
    agentMentions ([wComment] ++ [wReply]) ["@bot"] "B1" = [] ∧
    (runSummary wOracle ([wComment] ++ [wReply]) ["@bot"] "B1").repliesSent = 0 :=
  ⟨(rescan_idempotent wOracle [wComment] [wReply] ["@bot"] "B1"
      (by decide) (by decide)).2.1,
   (rescan_idempotent wOracle [wComment] [wReply] ["@bot"] "B1"
      (by decide) (by decide)).2.2.1⟩

/-- One loop iteration appends exactly its per-comment deltas. -/
theorem processComment_state (o : Comment → PerCommentEnv) (st : LoopState) (c : Comment) :
    processComment o st c =
      ⟨st.replies ++ replyDelta o c, st.skipped ++ skipDelta o c,
       st.audit ++ auditDelta o c⟩ := by
  cases hp : (o c).post <;> cases ha : (o c).auditOk <;>
    simp [processComment, replyDelta, skipDelta, auditDelta, hp, ha]

/-- The loop from an arbitrary starting state appends the concatenated
deltas of the processed comments. -/
theorem foldl_processComment (o : Comment → PerCommentEnv) (cs : List Comment) :
    ∀ st : LoopState,
      cs.foldl (processComment o) st =
        ⟨st.replies ++ cs.flatMap (replyDelta o), st.skipped ++ cs.flatMap (skipDelta o),
         st.audit ++ cs.flatMap (auditDelta o)⟩ := by
  induction cs with
  | nil => intro st; simp
  | cons c cs ih =>
    intro st
    rw [List.foldl_cons, ih, processComment_state]
    simp

/-- The loop state is the concatenation of the per-comment contributions. -/
theorem processLoop_eq (o : Comment → PerCommentEnv) (cs : List Comment) :
    processLoop o cs =
      ⟨cs.flatMap (replyDelta o), cs.flatMap (skipDelta o), cs.flatMap (auditDelta o)⟩ := by
  rw [processLoop, foldl_processComment]
  simp

/-- Each processed comment lands in exactly one of `replies`/`skipped`. -/
theorem delta_length (o : Comment → PerCommentEnv) (c : Comment) :
    (replyDelta o c).length + (skipDelta o c).length = 1 := by
  cases hp : (o c).post <;> simp [replyDelta, skipDelta, hp]

/-- Concatenated reply and skip contributions account for every comment. -/
theorem flatMap_delta_length (o : Comment → PerCommentEnv) :
    ∀ cs : List Comment,
      (cs.flatMap (replyDelta o)).length + (cs.flatMap (skipDelta o)).length = cs.length := by
  intro cs
  induction cs with
  | nil => simp
  | cons c cs ih =>
    rw [List.flatMap_cons, List.flatMap_cons, List.length_append, List.length_append,
      List.length_cons]
    have h1 := delta_length o c
    omega

/-- Replies and skips together account for every processed comment. -/
theorem loop_length (o : Comment → PerCommentEnv) :
    ∀ cs : List Comment,
      (processLoop o cs).replies.length + (processLoop o cs).skipped.length = cs.length := by
  intro cs
  rw [processLoop_eq]
  exact flatMap_delta_length o cs

/-- C10: once the per-comment loop is reached, `mentionsFound` equals
`repliesSent + skipped`; each actionable comment is appended to exactly one
of `replies[]`/`skipped[]`, and the accounting holds after every loop
iteration (that is, for every prefix of the actionable list). -/
theorem summary_accounting (oracle : Comment → PerCommentEnv) (cs : List Comment)
    (ps : List String) (bot : String) :
    (runSummary oracle cs ps bot).mentionsFound =
      (runSummary oracle cs ps bot).repliesSent +
        (runSummary oracle cs ps bot).skippedCount ∧
    (∀ k, (processLoop oracle ((agentMentions cs ps bot).take k)).replies.length +
        (processLoop oracle ((agentMentions cs ps bot).take k)).skipped.length =
      ((agentMentions cs ps bot).take k).length) ∧
    (∀ c, (replyDelta oracle c).length + (skipDelta oracle c).length = 1) := by
  refine ⟨?_, fun k => loop_length oracle _, fun c => delta_length oracle c⟩
  simp only [runSummary]
  exact (loop_length oracle (agentMentions cs ps bot)).symm

/-- C5: a reply-post failure for comment `A` appends `A` with its error to
`skipped`, keeps the audit record written for `A` (when its insert
succeeded), and every later comment `B` is still processed — a successful
`B` appears in `replies[]`; no per-comment failure aborts the batch. -/
theorem batch_isolation (oracle : Comment → PerCommentEnv) (pre rest : List Comment)
    (A : Comment) (e : String) (hA : (oracle A).post = .error e) :
    (⟨A.id, e⟩ : SkipRec) ∈ (processLoop oracle (pre ++ A :: rest)).skipped ∧
    ((oracle A).auditOk = true →
       auditRecOf (oracle A) A ∈ (processLoop oracle (pre ++ A :: rest)).audit) ∧
    (∀ B ∈ rest, ∀ r, (oracle B).post = .ok r →
       (⟨B.id, r⟩ : ReplyRec) ∈ (processLoop oracle (pre ++ A :: rest)).replies) := by
  rw [processLoop_eq]
  have hAmem : A ∈ pre ++ A :: rest := List.mem_append_right _ (List.mem_cons_self _ _)
  refine ⟨?_, ?_, ?_⟩
  · exact List.mem_flatMap.2 ⟨A, hAmem, by simp [skipDelta, hA]⟩
  · intro ha
    exact List.mem_flatMap.2 ⟨A, hAmem, by simp [auditDelta, ha]⟩
  · intro B hB r hr
    refine List.mem_flatMap.2 ⟨B, List.mem_append_right _ (List.mem_cons_of_mem _ hB), ?_⟩
    simp [replyDelta, hr]

/-- Exercises C5: posting fails for `cA`, which lands in `skipped` with its
error while the later `cB` still gets its reply. -/
theorem batch_isolation_witness :
    (⟨"cA", "boom"⟩ : SkipRec) ∈ (processLoop wOracle5 ([] ++ wA :: [wB])).skipped ∧
    (⟨"cB", "reply B"⟩ : ReplyRec) ∈ (processLoop wOracle5 ([] ++ wA :: [wB])).replies :=
  ⟨(batch_isolation wOracle5 [] [wB] wA "boom" rfl).1,
   (batch_isolation wOracle5 [] [wB] wA "boom" rfl).2.2 wB (by decide) "reply B" rfl⟩

/-- If attempt `i + j` (within budget) succeeds and every earlier attempt in
the window fails, the retry loop returns that success. -/
theorem withRetryGo_ok {ε α : Type} (fn : Nat → Except ε α) :
    ∀ (r i : Nat) (last : Option ε) (j : Nat) (v : α), j < r → fn (i + j) = .ok v →
      (∀ k, k < j → ∃ e, fn (i + k) = .error e) →
      withRetryGo fn i r last = some (.ok v) := by
  intro r
  induction r with
  | zero => intro i last j v hj; exact absurd hj (Nat.not_lt_zero j)
  | succ r ih =>
    intro i last j v hj hok hfail
    cases j with
    | zero =>
      rw [Nat.add_zero] at hok
      simp [withRetryGo, hok]
    | succ j' =>
      obtain ⟨e, he⟩ := hfail 0 (Nat.succ_pos _)
      rw [Nat.add_zero] at he
      rw [withRetryGo, he]
      exact ih (i + 1) (some e) j' v (Nat.lt_of_succ_lt_succ hj)
        (by rw [show i + 1 + j' = i + (j' + 1) by omega]; exact hok)
        (fun k hk => by
          rw [show i + 1 + k = i + (k + 1) by omega]
          exact hfail (k + 1) (Nat.succ_lt_succ hk))

/-- If every attempt in the window fails, the retry loop re-raises the final
attempt's error unchanged. -/
theorem withRetryGo_fail {ε α : Type} (fn : Nat → Except ε α) :
    ∀ (r i : Nat) (last : Option ε) (e : ε), 0 < r →
      (∀ k, k < r → ∃ e', fn (i + k) = .error e') → fn (i + (r - 1)) = .error e →
      withRetryGo fn i r last = some (.error e) := by
  intro r
  induction r with
  | zero => intro i last e hr; exact absurd hr (Nat.lt_irrefl 0)
  | succ r ih =>
    intro i last e _ hfail hfin
    obtain ⟨e0, he0⟩ := hfail 0 (Nat.succ_pos _)
    rw [Nat.add_zero] at he0
    rw [withRetryGo, he0]
    cases r with
    | zero =>
      have hfin' : fn i = Except.error e := by
        rw [show i + (0 + 1 - 1) = i by omega] at hfin
        exact hfin
      rw [he0] at hfin'
      injection hfin' with h
      subst h
      rfl
    | succ r' =>
      exact ih (i + 1) (some e0) e (Nat.succ_pos _)
        (fun k hk => by
          rw [show i + 1 + k = i + (k + 1) by omega]
          exact hfail (k + 1) (Nat.succ_lt_succ hk))
        (by rw [show i + 1 + (r' + 1 - 1) = i + (r' + 1 + 1 - 1) by omega]; exact hfin)

/-- The retry loop reads nothing beyond its attempt window. -/
theorem withRetryGo_congr {ε α : Type} (fn g : Nat → Except ε α) :
    ∀ (r i : Nat) (last : Option ε), (∀ k, k < r → fn (i + k) = g (i + k)) →
      withRetryGo fn i r last = withRetryGo g i r last := by
  intro r
  induction r with
  | zero => intro i last _; rfl
  | succ r ih =>
    intro i last hagree
    have h0 : fn i = g i := by
      have := hagree 0 (Nat.succ_pos _)
      rwa [Nat.add_zero] at this
    rw [withRetryGo, withRetryGo, h0]
    cases g i with
    | ok a => rfl
    | error e =>
      exact ih (i + 1) (some e) (fun k hk => by
        rw [show i + 1 + k = i + (k + 1) by omega]
        exact hagree (k + 1) (Nat.succ_lt_succ hk))

/-- C6: `withRetry(fn, n, delay)` makes at most `n` total attempts (the
result depends only on the first `n` attempt outcomes), returns the value of
the first successful attempt, and when all `n` attempts fail it re-raises
the final attempt's error unchanged (no transformation). -/
theorem withRetry_spec {ε α : Type} (fn : Nat → Except ε α) (n : Nat) :
    (∀ j v, j < n → fn j = .ok v → (∀ k, k < j → ∃ e, fn k = .error e) →
       withRetry fn n = some (.ok v)) ∧
    (∀ e, 0 < n → (∀ i, i < n → ∃ e', fn i = .error e') → fn (n - 1) = .error e →
       withRetry fn n = some (.error e)) ∧
    (∀ g : Nat → Except ε α, (∀ i, i < n → fn i = g i) → withRetry fn n = withRetry g n) := by
  refine ⟨fun j v hj hok hfail => ?_, fun e hn hfail hfin => ?_, fun g hagree => ?_⟩
  · exact withRetryGo_ok fn n 0 none j v hj (by simpa using hok) (by simpa using hfail)
  · exact withRetryGo_fail fn n 0 none e hn (by simpa using hfail) (by simpa using hfin)
  · exact withRetryGo_congr fn g n 0 none (by simpa using hagree)

/-- Exercises C6: two failures then a success under a 3-attempt budget
return the success value; three failures re-raise the last error. -/
theorem withRetry_witness :
    withRetry wRetryOk 3 = some (.ok "success") ∧
    withRetry wRetryFail 3 = some (.error "final") := by
  refine ⟨(withRetry_spec wRetryOk 3).1 2 "success" (by decide) rfl ?_, ?_⟩
  · intro k hk
    exact ⟨"transient", by interval_cases k <;> rfl⟩
  · refine (withRetry_spec wRetryFail 3).2.1 "final" (by decide) ?_ rfl
    intro i hi
    refine ⟨if i = 2 then "final" else "transient", ?_⟩
    interval_cases i <;> rfl

/-- C3: every accepted crop rectangle has non-negative integer origin,
positive dimensions, and fits inside the image (`x+width ≤ imgW`,
`y+height ≤ imgH`); when either clamped dimension is ≤ 0 the clamp rejects
the crop (`none`, i.e. `'Invalid crop dimensions'` is thrown), the crop
pipeline surfaces that throw, and a throw from the smart-processing step
sends the materializer to the fallback path. -/
theorem crop_clamp_spec (pre : IntRect) (imgW imgH : Int) :
    (∀ r, clampCrop pre imgW imgH = some r →
       0 ≤ r.x ∧ 0 ≤ r.y ∧ 0 < r.width ∧ 0 < r.height ∧
       r.x + r.width ≤ imgW ∧ r.y + r.height ≤ imgH) ∧
    (min pre.width (imgW - max 0 pre.x) ≤ 0 ∨ min pre.height (imgH - max 0 pre.y) ≤ 0 →
       clampCrop pre imgW imgH = none) ∧
    (∀ (env : ExtractEnv) (meta : ClientMeta) (off : NodeOffset) (scale : Rat)
       (buf : ImageBuf) (iw ih : Int), buf.width = some iw → buf.height = some ih →
       iw ≠ 0 → ih ≠ 0 → meta.node_offset = some off →
       clampCrop (preClampCrop meta off scale) iw ih = none →
       cropPipeline env meta scale buf = .error "Invalid crop dimensions") ∧
    (∀ (env : ExtractEnv) (meta : ClientMeta) (node : NodeDoc) (url? : Option String)
       (e : String), smartStep env meta node = (url?, .error e) →
       smartProcess env meta node = (url?, fallbackStep env url?)) := by
  refine ⟨?_, ?_, ?_, ?_⟩
  · intro r hr
    simp only [clampCrop] at hr
    split_ifs at hr with h
    · obtain ⟨hw, hh⟩ := h
      injection hr with hr
      subst hr
      dsimp only
      refine ⟨le_max_left _ _, le_max_left _ _, hw, hh, ?_, ?_⟩
      · have := min_le_right pre.width (imgW - max 0 pre.x)
        omega
      · have := min_le_right pre.height (imgH - max 0 pre.y)
        omega
  · intro h
    have hneg : ¬(0 < min pre.width (imgW - max 0 pre.x) ∧
        0 < min pre.height (imgH - max 0 pre.y)) := by omega
    simp only [clampCrop]
    rw [if_neg hneg]
  · intro env meta off scale buf iw ih hbw hbh hiw hih hoff hclamp
    obtain ⟨bw, bh⟩ := buf
    simp only at hbw hbh
    subst hbw
    subst hbh
    simp [cropPipeline, hoff, hiw, hih, hclamp]
  · intro env meta node url? e hstep
    simp [smartProcess, hstep]

/-- C4 counterexample: the render fetch succeeds (a non-null `imageUrl` is
obtained) and the cropping step throws (its download fails), yet
`imageBase64` is unset, because the full-frame fallback re-downloads the URL
and that second download fails as well — the claim's unconditional non-empty
`imageBase64` does not hold. -/
theorem extract_fallback_cex :
    (smartStep cexEnv4 wMeta wNode).2 = Except.error "download failed" ∧
    (extractDesignContext cexEnv4 wCommentCtx).imageUrl = some "http://img" ∧
    (extractDesignContext cexEnv4 wCommentCtx).imageBase64 = none :=
  ⟨rfl, rfl, rfl⟩

/-- C4 (amended): if the render fetch succeeded (truthy `imageUrl`) and the
smart-processing step throws, then provided the fallback's own re-download
and re-encode succeed, the extractor returns the fallback encoder's output
as `imageBase64` (and keeps the URL); the extractor itself never raises —
it is a total function, every failure path returning a (possibly partial)
context. -/
theorem extract_fallback (env : ExtractEnv) (c : Comment) (meta : ClientMeta)
    (node : NodeDoc) (nid u e b64 : String) (buf : ImageBuf)
    (hmeta : c.client_meta = some meta) (hnid : meta.node_id = some nid) (hne : nid ≠ "")
    (hinfo : env.nodeInfo = .ok (some node))
    (hstep : smartStep env meta node = (some u, .error e)) (hu : u ≠ "")
    (hdl : env.download2 u = .ok buf) (henc : env.fullEncode buf = .ok b64) :
    (extractDesignContext env c).imageBase64 = some b64 ∧
    (extractDesignContext env c).imageUrl = some u := by
  have hsp : smartProcess env meta node = (some u, fallbackStep env (some u)) := by
    simp [smartProcess, hstep]
  have hfb : fallbackStep env (some u) = some b64 := by
    simp [fallbackStep, hu, hdl, henc]
  constructor <;>
    simp [extractDesignContext, hmeta, hnid, hne, hinfo, hsp, hfb]

/-- Exercises the amended C4: crop-path download fails, fallback succeeds,
and the context carries the fallback's full-frame encoding. -/
theorem extract_fallback_witness :
    (extractDesignContext wEnv4 wCommentCtx).imageBase64 = some "fullframe-jpeg" ∧
    (extractDesignContext wEnv4 wCommentCtx).imageUrl = some "http://img" :=
  extract_fallback wEnv4 wCommentCtx wMeta wNode "1:2" "http://img" "download failed"
    "fullframe-jpeg" ⟨some 200, some 200⟩ rfl rfl (by decide) rfl rfl (by decide) rfl rfl

/-- `Math.round` commutes with subtracting an integer. -/
theorem jsRound_sub_int (q : Rat) (n : Int) : jsRound (q - n) = jsRound q - n := by
  simp [jsRound, sub_add_eq_add_sub, Int.floor_sub_int]

/-- C9: only an absent or empty `comment_pin_corner` defaults to
`'bottom-right'`; any other value that is not exactly `'bottom-right'`,
`'bottom-left'` or `'top-right'` — including `'center'` — falls through to
the top-left case: the pin offset is taken as the rectangle's top-left
corner. -/
theorem pin_corner_fallthrough (pinX pinY rW rH : Rat) :
    jsOrCorner none = "bottom-right" ∧
    jsOrCorner (some "") = "bottom-right" ∧
    (∀ s, s ≠ "" → jsOrCorner (some s) = s) ∧
    (∀ s, s ≠ "bottom-right" → s ≠ "bottom-left" → s ≠ "top-right" →
       resolveRegionTopLeft pinX pinY rW rH s = (pinX, pinY)) ∧
    resolveRegionTopLeft pinX pinY rW rH "center" = (pinX, pinY) := by
  refine ⟨rfl, rfl, fun s hs => ?_, fun s h1 h2 h3 => ?_, rfl⟩
  · simp [jsOrCorner, hs]
  · simp [resolveRegionTopLeft, h1, h2, h3]

/-- C8: with `node_offset = (1000, 800)`, `region_width = 200`,
`region_height = 100`, `comment_pin_corner = 'top-left'` and scale 1, the
resolved region rectangle has top-left exactly `(1000, 800)` and size
`200 × 100`. -/
theorem region_corner_resolution :
    regionRect wMeta8 ⟨1000, 800⟩ 1 = some ⟨1000, 800, 200, 100⟩ := by
  simp [regionRect, regionTruthy, truthyNum, wMeta8, jsOrZero,
    resolveRegionTopLeft, jsOrCorner]

/-- C7 counterexample: a 1×1 region pinned top-left at the origin has
centroid `(1/2, 1/2)`, but the 800×800 pre-clamp crop is positioned at
`(-399, -399)`, whose centre is `1 ≠ 1/2` — the fixed square is centred on
the rounded centroid, not on the centroid itself. -/
theorem region_center_cex :
    regionRect cexMeta7 offZero 1 = some ⟨0, 0, 1, 1⟩ ∧
    max (1 : Rat) 1 < (MIN_VIEWPORT_SIZE : Rat) ∧
    preClampCrop cexMeta7 offZero 1 = ⟨-399, -399, 800, 800⟩ ∧
    ((preClampCrop cexMeta7 offZero 1).x : Rat) +
      ((preClampCrop cexMeta7 offZero 1).width : Rat) / 2 ≠ 0 + 1 / 2 := by
  have hr : regionRect cexMeta7 offZero 1 = some ⟨0, 0, 1, 1⟩ := by
    simp [regionRect, regionTruthy, truthyNum, cexMeta7, jsOrZero,
      resolveRegionTopLeft, jsOrCorner, offZero]
  have hcrop : preClampCrop cexMeta7 offZero 1 = ⟨-399, -399, 800, 800⟩ := by
    simp only [preClampCrop, hr, ge_iff_le]
    rw [if_neg (by norm_num [MIN_VIEWPORT_SIZE])]
    norm_num [MIN_VIEWPORT_SIZE, jsRound]
  refine ⟨hr, by norm_num [MIN_VIEWPORT_SIZE], hcrop, ?_⟩
  rw [hcrop]
  norm_num

/-- C7 (amended): for a region comment, if a scaled region dimension reaches
the minimum viewport the pre-clamp crop is the resolved region rectangle
rounded to integers; otherwise it is the fixed
`MIN_VIEWPORT_SIZE × MIN_VIEWPORT_SIZE` square whose top-left is the
centroid minus half the viewport, rounded (so its centre is the centroid
rounded to the nearest integer, which coincides with the centroid exactly
when the centroid is integral). -/
theorem region_sizing (m : ClientMeta) (off : NodeOffset) (s : Rat) (rect : RatRect)
    (hr : regionRect m off s = some rect) :
    ((MIN_VIEWPORT_SIZE : Rat) ≤ max rect.width rect.height →
       preClampCrop m off s =
         ⟨jsRound rect.left, jsRound rect.top, jsRound rect.width, jsRound rect.height⟩) ∧
    (max rect.width rect.height < (MIN_VIEWPORT_SIZE : Rat) →
       preClampCrop m off s =
         ⟨jsRound (rect.left + rect.width / 2 - (MIN_VIEWPORT_SIZE : Rat) / 2),
          jsRound (rect.top + rect.height / 2 - (MIN_VIEWPORT_SIZE : Rat) / 2),
          MIN_VIEWPORT_SIZE, MIN_VIEWPORT_SIZE⟩) ∧
    (max rect.width rect.height < (MIN_VIEWPORT_SIZE : Rat) →
       (preClampCrop m off s).x + MIN_VIEWPORT_SIZE / 2 =
           jsRound (rect.left + rect.width / 2) ∧
       (preClampCrop m off s).y + MIN_VIEWPORT_SIZE / 2 =
           jsRound (rect.top + rect.height / 2)) := by
  have hhalf : (MIN_VIEWPORT_SIZE : Rat) / 2 = ((MIN_VIEWPORT_SIZE / 2 : Int) : Rat) := by
    norm_num [MIN_VIEWPORT_SIZE]
  have hsmall : max rect.width rect.height < (MIN_VIEWPORT_SIZE : Rat) →
      preClampCrop m off s =
        ⟨jsRound (rect.left + rect.width / 2 - (MIN_VIEWPORT_SIZE : Rat) / 2),
         jsRound (rect.top + rect.height / 2 - (MIN_VIEWPORT_SIZE : Rat) / 2),
         MIN_VIEWPORT_SIZE, MIN_VIEWPORT_SIZE⟩ := by
    intro h
    obtain ⟨h1, h2⟩ := max_lt_iff.mp h
    simp only [preClampCrop, hr, ge_iff_le]
    rw [if_neg (not_or.mpr ⟨not_le.mpr h1, not_le.mpr h2⟩)]
  refine ⟨fun h => ?_, hsmall, fun h => ?_⟩
  · simp only [preClampCrop, hr, ge_iff_le]
    rw [if_pos (le_max_iff.mp h)]
  · rw [hsmall h]
    dsimp only
    rw [hhalf, jsRound_sub_int, jsRound_sub_int]
    omega

/-- Exercises the amended C7: a 100×50 region pinned top-left at the origin
is smaller than the viewport in both dimensions, so the crop is the fixed
800×800 square re-centred on the region's centroid `(50, 25)`. -/
theorem region_sizing_witness :
    preClampCrop wMeta7 offZero 1 =
      ⟨jsRound ((0 : Rat) + 100 / 2 - (MIN_VIEWPORT_SIZE : Rat) / 2),
       jsRound ((0 : Rat) + 50 / 2 - (MIN_VIEWPORT_SIZE : Rat) / 2),
       MIN_VIEWPORT_SIZE, MIN_VIEWPORT_SIZE⟩ :=
  (region_sizing wMeta7 offZero 1 ⟨0, 0, 100, 50⟩
      (by simp [regionRect, regionTruthy, truthyNum, wMeta7, jsOrZero,
        resolveRegionTopLeft, jsOrCorner, offZero])).2.1
    (by norm_num [MIN_VIEWPORT_SIZE])

end Minos
